import Mathlib

/-!
Verification of the verge-news-mcp feed pipeline (src/index.ts).

The TypeScript source is shallowly embedded: JavaScript strings are modelled
as Lean strings (one `Char` per UTF-16 code unit), async operations that can
throw are modelled as `Except`-valued functions, and the nondeterministic
parts (the wall clock, `Math.random`, `new Date(string)` parsing, network
responses) are passed in as explicit parameters.  Each definition is a direct
transcription of the function of the same name in src/index.ts.
-/

/-- Model of JavaScript `String.prototype.includes`: `pat` occurs as a
contiguous substring of `s`.  The source uses it for error-message
classification and for the keyword filter. -/
def jsIncludes (s pat : String) : Bool :=
  decide (pat.toList <:+: s.toList)

/-- Model of the JavaScript idiom `a || b` on an optional string: a value
that is `undefined`/`null` (here `none`) or the empty string (falsy in JS)
falls through to the fallback `b`. -/
def jsOrElse (a : Option String) (b : String) : String :=
  match a with
  | none => b
  | some s => if s = "" then b else s

/-- Model of JavaScript `s.substring(0, n)`: the first `n` code units of
`s` (all of `s` when it is shorter). -/
def jsSubstrTo (s : String) (n : Nat) : String :=
  String.mk (s.toList.take n)

/-- Model of JavaScript `String.prototype.toLowerCase`: lowercase each code
unit. -/
def jsToLower (s : String) : String :=
  String.mk (s.toList.map Char.toLower)

/-- Model of JavaScript `String.prototype.trim`: strip leading and trailing
whitespace. -/
def jsTrim (s : String) : String :=
  String.mk
    ((s.toList.dropWhile Char.isWhitespace).reverse.dropWhile
      Char.isWhitespace).reverse

/-- Trace of one `withRetry` execution (src/index.ts lines 57-80): the
propagated result, the number of times the wrapped operation was invoked,
and the list of backoff delays (in ms) actually waited, in order. -/
structure RetryTrace (E T : Type) where
  result : Except E T
  calls : Nat
  delays : List Nat
deriving Repr

/-- Loop of `withRetry`.  `attempt` is the 0-based attempt counter of the
source's `for` loop and `remaining` is `maxRetries - attempt`, the number
of further attempts allowed after the current one.  On success the value is
returned at once; on failure with `remaining = 0` the last error is thrown;
otherwise the loop waits `baseDelayMs * 2 ^ attempt` and retries.  The
behaviour of the attempt `attempt` is given by `fn attempt`. -/
def withRetryGo (fn : Nat → Except E T) (baseDelayMs : Nat) :
    (attempt remaining : Nat) → RetryTrace E T
  | attempt, 0 =>
    match fn attempt with
    | .ok v => ⟨.ok v, 1, []⟩
    | .error e => ⟨.error e, 1, []⟩
  | attempt, r + 1 =>
    match fn attempt with
    | .ok v => ⟨.ok v, 1, []⟩
    | .error _ =>
      let rest := withRetryGo fn baseDelayMs (attempt + 1) r
      ⟨rest.result, rest.calls + 1, baseDelayMs * 2 ^ attempt :: rest.delays⟩

/-- Model of `withRetry` (src/index.ts lines 57-80): run `fn` up to
`maxRetries + 1` times with exponential backoff, propagating the first
success or the error of the last attempt. -/
def withRetry (fn : Nat → Except E T) (maxRetries baseDelayMs : Nat) :
    RetryTrace E T :=
  withRetryGo fn baseDelayMs 0 maxRetries

/-- Branch tag recording which of the six throw sites in the catch block of
`fetchNews` (src/index.ts lines 89-136) produced the classified error. -/
inductive FetchKind
  | dns
  | timedOut
  | connRefused
  | accessDenied
  | feedNotFound
  | generic
deriving Repr, DecidableEq

/-- Model of the `FetchError` class (src/index.ts lines 37-47): the
user-facing message, the optional source URL and the optional HTTP status
code (the `cause` field carries no logic and is omitted). -/
structure FetchErrorModel where
  message : String
  url : Option String
  statusCode : Option Nat
deriving Repr, DecidableEq

/-- Model of the error-classification catch block of `fetchNews`
(src/index.ts lines 89-136): given the underlying failure's message text and
the feed URL, produce the branch taken together with the `FetchError`
thrown there.  The branches are tried in source order. -/
def classifyFetchError (errorMessage feedUrl : String) :
    FetchKind × FetchErrorModel :=
  if jsIncludes errorMessage "ENOTFOUND" || jsIncludes errorMessage "EAI_AGAIN" then
    (.dns, ⟨"DNS resolution failed - cannot reach the server. Check your internet connection.",
      some feedUrl, none⟩)
  else if jsIncludes errorMessage "ETIMEDOUT" || jsIncludes errorMessage "timeout" then
    (.timedOut, ⟨"Request timed out - the server took too long to respond.",
      some feedUrl, none⟩)
  else if jsIncludes errorMessage "ECONNREFUSED" then
    (.connRefused, ⟨"Connection refused - the server is not accepting connections.",
      some feedUrl, none⟩)
  else if jsIncludes errorMessage "403" || jsIncludes errorMessage "Access denied" then
    (.accessDenied, ⟨"Access denied - the server blocked the request. Try again later.",
      some feedUrl, some 403⟩)
  else if jsIncludes errorMessage "404" then
    (.feedNotFound, ⟨"Feed not found - the RSS feed URL may be incorrect.",
      some feedUrl, some 404⟩)
  else
    (.generic, ⟨"Failed to fetch RSS feed: " ++ errorMessage, some feedUrl, none⟩)

/-- Model of `formatErrorMessage` (src/index.ts lines 288-305) restricted to
`FetchError` values: the message plus optional URL and status lines (a status
code of 0 is falsy in JS and is skipped, mirroring `if (error.statusCode)`). -/
def formatErrorMessage (e : FetchErrorModel) : String :=
  e.message ++
    (match e.url with
     | some u => "\n   URL: " ++ u
     | none => "") ++
    (match e.statusCode with
     | some sc => if sc = 0 then "" else "\n   Status: " ++ toString sc
     | none => "")

/-- Model of an rss-parser `Parser.Item` as used by this program: every field
read by the source is optional (JS `undefined` is `none`). -/
structure FeedItem where
  title : Option String
  link : Option String
  pubDate : Option String
  creator : Option String
  contentSnippet : Option String
  content : Option String
  categories : Option (List String)
deriving Repr, DecidableEq

/-- Result shape of `formatNewsItems` (src/index.ts lines 214-223): all
fields defaulted to sentinel strings. -/
structure FormattedItem where
  title : String
  link : String
  pubDate : String
  creator : String
  content : String
  categories : List String
deriving Repr, DecidableEq

/-- Model of `formatNewsItems` (src/index.ts lines 214-223): substitute the
sentinel defaults for absent (or JS-falsy) fields. -/
def formatNewsItems (items : List FeedItem) : List FormattedItem :=
  items.map fun item =>
    { title := jsOrElse item.title "No title"
      link := jsOrElse item.link "#"
      pubDate := jsOrElse item.pubDate "Unknown date"
      creator := jsOrElse item.creator "Unknown author"
      content := jsOrElse item.contentSnippet (jsOrElse item.content "No content available")
      categories := item.categories.getD [] }

/-- Milliseconds in one day, used to model the cutoff-date arithmetic of
`filterNewsByDate` (`cutoffDate.setDate(cutoffDate.getDate() - daysBack)`)
as subtraction on millisecond timestamps. -/
def msPerDay : Int := 86400000

/-- Date test applied to one item by `filterNewsByDate` (src/index.ts lines
230-234).  `parse` models `new Date(string)`, returning the millisecond
timestamp or `none` for an invalid date (whose comparisons are all false in
JS, so the item is dropped).  A missing or empty `pubDate` is falsy and is
dropped by the `if (!item.pubDate)` guard. -/
def pubDatePasses (parse : String → Option Int) (cutoff : Int)
    (pd : Option String) : Bool :=
  match pd with
  | none => false
  | some s =>
    if s = "" then false
    else
      match parse s with
      | none => false
      | some t => cutoff ≤ t

/-- Model of `filterNewsByDate` (src/index.ts lines 226-235): keep the items
whose publication date parses to a timestamp at or after `now` minus
`daysBack` days. -/
def filterNewsByDate (parse : String → Option Int) (now : Int)
    (items : List FeedItem) (daysBack : Nat) : List FeedItem :=
  let cutoffDate := now - daysBack * msPerDay
  items.filter fun item => pubDatePasses parse cutoffDate item.pubDate

/-- Keyword test applied to one item by `filterNewsByKeyword` (src/index.ts
lines 241-245): case-insensitive substring match against the title or the
content snippet (falling back to the raw content, then the empty string). -/
def keywordMatches (lowerKeyword : String) (item : FeedItem) : Bool :=
  let title := jsToLower (jsOrElse item.title "")
  let content := jsToLower (jsOrElse item.contentSnippet (jsOrElse item.content ""))
  jsIncludes title lowerKeyword || jsIncludes content lowerKeyword

/-- Model of `filterNewsByKeyword` (src/index.ts lines 238-246). -/
def filterNewsByKeyword (items : List FeedItem) (keyword : String) :
    List FeedItem :=
  let lowerKeyword := jsToLower keyword
  items.filter fun item => keywordMatches lowerKeyword item

/-- Fixed message returned by `formatNewsAsBriefSummary` for an empty item
list (src/index.ts line 251). -/
def noArticlesMessage : String :=
  "No news articles found for the specified criteria."

/-- Per-item summary text of `formatNewsAsBriefSummary` (src/index.ts line
257): the first 150 code units of the content, trimmed, with an ellipsis
appended exactly when the content is longer than 150 code units. -/
def summaryOf (content : String) : String :=
  jsTrim (jsSubstrTo content 150) ++ (if 150 < content.length then "..." else "")

/-- Text block rendered for one item by `formatNewsAsBriefSummary`
(src/index.ts lines 259-265), with `index` the 0-based position. -/
def briefSummaryLine (index : Nat) (item : FormattedItem) : String :=
  "\n" ++ toString (index + 1) ++ ". " ++ item.title ++
    "\n   Published: " ++ item.pubDate ++
    "\n   Author: " ++ item.creator ++
    "\n   Link: " ++ item.link ++
    "\n   Summary: " ++ summaryOf item.content ++ "\n"

/-- Model of `formatNewsAsBriefSummary` (src/index.ts lines 249-267): the
fixed no-articles message for an empty list, otherwise the first `limit`
items rendered and joined with a separator line. -/
def formatNewsAsBriefSummary (items : List FormattedItem) (limit : Nat) :
    String :=
  if items = [] then noArticlesMessage
  else
    let limitedItems := items.take limit
    String.intercalate "\n---\n"
      (limitedItems.enum.map fun p => briefSummaryLine p.1 p.2)

/-- Selection loop of `getRandomNewsItems` (src/index.ts lines 278-282):
at each step `i` pick index `rand i % pool.length` (JS
`Math.floor(Math.random() * itemsCopy.length)` always lands in
`[0, pool.length)`; an arbitrary choice sequence is modelled by `rand`
reduced modulo the pool size), move that element from the pool to the
result, and stop after `count` picks or when the pool empties.  Returns the
picked items together with the remaining pool. -/
def sampleGo (rand : Nat → Nat) : (step count : Nat) → List α → List α × List α
  | _, 0, pool => ([], pool)
  | _, _ + 1, [] => ([], [])
  | step, count + 1, a :: rest =>
    let pool := a :: rest
    let idx := rand step % pool.length
    let picked := pool.get ⟨idx, Nat.mod_lt _ (Nat.succ_pos _)⟩
    let next := sampleGo rand (step + 1) count (pool.eraseIdx idx)
    (picked :: next.1, next.2)

/-- Model of `getRandomNewsItems` (src/index.ts lines 270-285): return the
whole list when it has at most `count` items, otherwise sample `count`
items without replacement using the choice sequence `rand`. -/
def getRandomNewsItems (rand : Nat → Nat) (items : List α) (count : Nat) :
    List α :=
  if items.length ≤ count then items
  else (sampleGo rand 0 count items).1

/-- Heap of JS arrays for the frame-effect analysis of `getRandomNewsItems`:
array references are indices into the list of allocated arrays. -/
structure JsHeap (α : Type) where
  arrays : List (List α)

/-- Contents of the array at reference `r` (empty for a dangling reference). -/
def readArr (h : JsHeap α) (r : Nat) : List α :=
  h.arrays.getD r []

/-- Overwrite the array at reference `r` (a no-op on a dangling reference),
modelling in-place mutation such as `splice`. -/
def writeArr (h : JsHeap α) (r : Nat) (l : List α) : JsHeap α :=
  ⟨h.arrays.set r l⟩

/-- Allocate a fresh array holding `l`, returning the new heap and the new
reference; models `[...items]` creating a new array object. -/
def allocArr (h : JsHeap α) (l : List α) : JsHeap α × Nat :=
  (⟨h.arrays ++ [l]⟩, h.arrays.length)

/-- Heap-instrumented selection loop of `getRandomNewsItems` (src/index.ts
lines 278-282): every read and `splice` goes through the heap reference
`copyRef` of the working copy, making it explicit which array is mutated. -/
def sampleLoopH (rand : Nat → Nat) (copyRef : Nat) :
    (step remaining : Nat) → JsHeap α → List α → JsHeap α × List α
  | _, 0, h, acc => (h, acc)
  | step, r + 1, h, acc =>
    match readArr h copyRef with
    | [] => (h, acc)
    | a :: rest =>
      let pool := a :: rest
      let idx := rand step % pool.length
      let picked := pool.get ⟨idx, Nat.mod_lt _ (Nat.succ_pos _)⟩
      sampleLoopH rand copyRef (step + 1) r
        (writeArr h copyRef (pool.eraseIdx idx)) (acc ++ [picked])

/-- Heap-instrumented model of `getRandomNewsItems` (src/index.ts lines
270-285): the argument array is passed by reference `itemsRef`; the function
first copies it into a fresh array (`const itemsCopy = [...items]`) and all
`splice` mutations target that copy. -/
def getRandomNewsItemsH (rand : Nat → Nat) (h : JsHeap α) (itemsRef : Nat)
    (count : Nat) : JsHeap α × List α :=
  let items := readArr h itemsRef
  if items.length ≤ count then (h, items)
  else
    let alloc := allocArr h items
    sampleLoopH rand alloc.2 0 count alloc.1 []

/-- Fallback message of `fetchArticleContent` for a low-confidence
extraction (src/index.ts line 189). -/
def fallbackArticleMessage (articleUrl : String) : String :=
  "Could not extract article content. Please visit the URL directly: " ++ articleUrl

/-- Suffix appended by `fetchArticleContent` when the extracted text is cut
at 5000 code units (src/index.ts line 194). -/
def truncationSuffix : String :=
  "...\n\n[Content truncated. Visit the full article for more.]"

/-- Length policy applied by `fetchArticleContent` to the cleaned article
text (src/index.ts lines 188-197): empty or short text degrades to the
fallback message, text over 5000 code units is truncated with a notice. -/
def articleContentResult (articleUrl content : String) : String :=
  if content = "" ∨ content.length < 100 then fallbackArticleMessage articleUrl
  else if 5000 < content.length then jsSubstrTo content 5000 ++ truncationSuffix
  else content

/-- Model of one attempt of `fetchArticleContent` (src/index.ts lines
146-207) after the HTML response arrives: a non-2xx status throws a
`FetchError` carrying the status code (`response.ok` is status 200-299);
otherwise the regex extraction and entity cleanup produce `cleaned`
(abstracted here as an input) and the length policy is applied.  A fallback
or truncated text is a normal `.ok` return, never an error. -/
def fetchArticleAttempt (articleUrl : String) (status : Nat)
    (statusText cleaned : String) : Except FetchErrorModel String :=
  if ¬(200 ≤ status ∧ status ≤ 299) then
    .error ⟨"HTTP " ++ toString status ++ ": " ++ statusText,
      some articleUrl, some status⟩
  else
    .ok (articleContentResult articleUrl cleaned)

/-- Response envelope returned by every tool handler: the rendered text and
the `isError` flag (absent in JS on success, modelled as `false`). -/
structure ToolResponse where
  text : String
  isError : Bool
deriving Repr, DecidableEq

/-- Model of the `get-daily-news` handler (src/index.ts lines 336-362) from
the point where the feed fetch has resolved: on success, filter to the last
day, format, and wrap in a success envelope; on failure, wrap the classified
error message in an error envelope. -/
def getDailyNews (parse : String → Option Int) (now : Int)
    (sourceName : String) (fetched : Except FetchErrorModel (List FeedItem)) :
    ToolResponse :=
  match fetched with
  | .error e =>
    ⟨"Error fetching daily news:\n" ++ formatErrorMessage e, true⟩
  | .ok allNews =>
    let todayNews := filterNewsByDate parse now allNews 1
    let formattedNews := formatNewsItems todayNews
    let newsText := formatNewsAsBriefSummary formattedNews 10
    ⟨"# " ++ sourceName ++ " - Today's News\n\n" ++ newsText, false⟩

/-- Model of the `search-news` handler (src/index.ts lines 417-445) from the
point where the feed fetch has resolved: date filter, keyword filter, format,
and a header reporting the total match count. -/
def searchNews (parse : String → Option Int) (now : Int) (keyword : String)
    (days : Nat) (sourceName : String)
    (fetched : Except FetchErrorModel (List FeedItem)) : ToolResponse :=
  match fetched with
  | .error e =>
    ⟨"Error searching news:\n" ++ formatErrorMessage e, true⟩
  | .ok allNews =>
    let filteredByDate := filterNewsByDate parse now allNews days
    let filteredByKeyword := filterNewsByKeyword filteredByDate keyword
    let formattedNews := formatNewsItems filteredByKeyword
    let newsText := formatNewsAsBriefSummary formattedNews 10
    ⟨"# " ++ sourceName ++ " - Search Results for \"" ++ keyword ++
      "\"\n\nFound " ++ toString filteredByKeyword.length ++
      " articles matching \"" ++ keyword ++ "\" in the last " ++
      toString days ++ " days.\n\n" ++ newsText, false⟩

theorem withRetryGo_calls_le (fn : Nat → Except E T) (base : Nat) :
    ∀ remaining attempt, (withRetryGo fn base attempt remaining).calls ≤ remaining + 1 := by
  intro remaining
  induction remaining with
  | zero =>
    intro attempt
    unfold withRetryGo
    cases fn attempt <;> simp
  | succ r ih =>
    intro attempt
    unfold withRetryGo
    cases fn attempt with
    | ok v => simp
    | error e =>
      simp only []
      have := ih (attempt + 1)
      omega

theorem withRetryGo_success (fn : Nat → Except E T) (base : Nat) (v : T) :
    ∀ k attempt remaining, k ≤ remaining →
      (∀ i, i < k → ∃ e, fn (attempt + i) = .error e) →
      fn (attempt + k) = .ok v →
      withRetryGo fn base attempt remaining =
        ⟨.ok v, k + 1, (List.range' attempt k).map fun i => base * 2 ^ i⟩ := by
  intro k
  induction k with
  | zero =>
    intro attempt remaining _ _ hok
    rw [Nat.add_zero] at hok
    cases remaining <;> · unfold withRetryGo; rw [hok]; simp
  | succ k ih =>
    intro attempt remaining hle hfail hok
    obtain ⟨e, he⟩ := hfail 0 (Nat.succ_pos k)
    rw [Nat.add_zero] at he
    cases remaining with
    | zero => omega
    | succ r =>
      unfold withRetryGo
      rw [he]
      have hrec := ih (attempt + 1) r (by omega)
        (fun i hi => by
          have h2 := hfail (i + 1) (by omega)
          rwa [show attempt + (i + 1) = attempt + 1 + i by omega] at h2)
        (by rwa [show attempt + 1 + k = attempt + (k + 1) by omega])
      rw [hrec, List.range'_succ]
      simp

theorem withRetryGo_allFail (fn : Nat → Except E T) (base : Nat) (e : E) :
    ∀ remaining attempt,
      (∀ i, i < remaining → ∃ e', fn (attempt + i) = .error e') →
      fn (attempt + remaining) = .error e →
      withRetryGo fn base attempt remaining =
        ⟨.error e, remaining + 1, (List.range' attempt remaining).map fun i => base * 2 ^ i⟩ := by
  intro remaining
  induction remaining with
  | zero =>
    intro attempt _ hlast
    rw [Nat.add_zero] at hlast
    unfold withRetryGo
    rw [hlast]
    simp
  | succ r ih =>
    intro attempt hfail hlast
    obtain ⟨e0, he0⟩ := hfail 0 (Nat.succ_pos r)
    rw [Nat.add_zero] at he0
    unfold withRetryGo
    rw [he0]
    have hrec := ih (attempt + 1)
      (fun i hi => by
        have h2 := hfail (i + 1) (by omega)
        rwa [show attempt + (i + 1) = attempt + 1 + i by omega] at h2)
      (by rwa [show attempt + 1 + r = attempt + (r + 1) by omega])
    rw [hrec, List.range'_succ]
    simp

/-- C1: for every operation and policy, `withRetry` invokes the operation at
most `maxRetries + 1` times; when the first success is at 0-based attempt
`k` it returns that value after exactly `k + 1` calls, having waited
`baseDelayMs * 2 ^ i` after each failed attempt `i < k` and nothing more;
when all `maxRetries + 1` attempts fail it propagates the error of the last
attempt; and an operation failing on attempts 0 and 1 and succeeding on
attempt 2 (the third attempt) under `maxRetries = 3` returns the success
value after delays `[baseDelayMs, 2 * baseDelayMs]`. -/
theorem withRetry_contract (E T : Type) (fn : Nat → Except E T)
    (maxRetries baseDelayMs : Nat) :
    (withRetry fn maxRetries baseDelayMs).calls ≤ maxRetries + 1 ∧
    (∀ k v, k ≤ maxRetries → (∀ i, i < k → ∃ e, fn i = .error e) →
      fn k = .ok v →
      withRetry fn maxRetries baseDelayMs =
        ⟨.ok v, k + 1, (List.range k).map fun i => baseDelayMs * 2 ^ i⟩) ∧
    (∀ e, (∀ i, i < maxRetries → ∃ e', fn i = .error e') →
      fn maxRetries = .error e →
      withRetry fn maxRetries baseDelayMs =
        ⟨.error e, maxRetries + 1,
          (List.range maxRetries).map fun i => baseDelayMs * 2 ^ i⟩) ∧
    (∀ v e0 e1, fn 0 = .error e0 → fn 1 = .error e1 → fn 2 = .ok v →
      withRetry fn 3 baseDelayMs = ⟨.ok v, 3, [baseDelayMs, 2 * baseDelayMs]⟩) := by
  refine ⟨withRetryGo_calls_le fn baseDelayMs maxRetries 0, ?_, ?_, ?_⟩
  · intro k v hk hfail hok
    rw [withRetry, List.range_eq_range']
    exact withRetryGo_success fn baseDelayMs v k 0 maxRetries hk
      (fun i hi => by simpa using hfail i hi) (by simpa using hok)
  · intro e hfail hlast
    rw [withRetry, List.range_eq_range']
    exact withRetryGo_allFail fn baseDelayMs e maxRetries 0
      (fun i hi => by simpa using hfail i hi) (by simpa using hlast)
  · intro v e0 e1 h0 h1 h2
    have hrun := withRetryGo_success fn baseDelayMs v 2 0 3 (by omega)
      (fun i hi => by
        interval_cases i
        · exact ⟨e0, by simpa using h0⟩
        · exact ⟨e1, by simpa using h1⟩)
      (by simpa using h2)
    rw [withRetry, hrun]
    norm_num [List.range'_succ, Nat.mul_comm]

/-- Concrete run of `withRetry_contract`: an operation failing on its first
two attempts and succeeding on the third, under `maxRetries = 3` and
`baseDelayMs = 1000`, yields the value 42 after 3 calls and delays of
1000 ms and 2000 ms. -/
theorem withRetry_contract_witness :
    withRetry (fun n => if n < 2 then (.error "boom") else (.ok 42)) 3 1000 =
      ⟨.ok 42, 3, [1000, 2000]⟩ :=
  (withRetry_contract String Nat _ 3 1000).2.2.2 42 "boom" "boom"
    (by norm_num) (by norm_num) (by norm_num)

/-- C2: the catch block of `fetchNews` classifies the underlying failure
message by the first matching rule, in source order: DNS signatures
(`ENOTFOUND`/`EAI_AGAIN`), then timeout signatures (`ETIMEDOUT`/`timeout`),
then `ECONNREFUSED`, then `403`/`Access denied` (carrying status 403), then
`404` (carrying status 404), and otherwise a generic error wrapping the
original message; in particular a message containing `ENOTFOUND` is always
classified as a DNS failure, never as the generic kind. -/
theorem classifyFetchError_priority (m u : String) :
    ((jsIncludes m "ENOTFOUND" = true ∨ jsIncludes m "EAI_AGAIN" = true) →
      (classifyFetchError m u).1 = .dns ∧
        (classifyFetchError m u).2.message =
          "DNS resolution failed - cannot reach the server. Check your internet connection.") ∧
    (jsIncludes m "ENOTFOUND" = false → jsIncludes m "EAI_AGAIN" = false →
      (jsIncludes m "ETIMEDOUT" = true ∨ jsIncludes m "timeout" = true) →
      (classifyFetchError m u).1 = .timedOut ∧
        (classifyFetchError m u).2.message =
          "Request timed out - the server took too long to respond.") ∧
    (jsIncludes m "ENOTFOUND" = false → jsIncludes m "EAI_AGAIN" = false →
      jsIncludes m "ETIMEDOUT" = false → jsIncludes m "timeout" = false →
      jsIncludes m "ECONNREFUSED" = true →
      (classifyFetchError m u).1 = .connRefused ∧
        (classifyFetchError m u).2.message =
          "Connection refused - the server is not accepting connections.") ∧
    (jsIncludes m "ENOTFOUND" = false → jsIncludes m "EAI_AGAIN" = false →
      jsIncludes m "ETIMEDOUT" = false → jsIncludes m "timeout" = false →
      jsIncludes m "ECONNREFUSED" = false →
      (jsIncludes m "403" = true ∨ jsIncludes m "Access denied" = true) →
      (classifyFetchError m u).1 = .accessDenied ∧
        (classifyFetchError m u).2.statusCode = some 403) ∧
    (jsIncludes m "ENOTFOUND" = false → jsIncludes m "EAI_AGAIN" = false →
      jsIncludes m "ETIMEDOUT" = false → jsIncludes m "timeout" = false →
      jsIncludes m "ECONNREFUSED" = false → jsIncludes m "403" = false →
      jsIncludes m "Access denied" = false → jsIncludes m "404" = true →
      (classifyFetchError m u).1 = .feedNotFound ∧
        (classifyFetchError m u).2.statusCode = some 404) ∧
    (jsIncludes m "ENOTFOUND" = false → jsIncludes m "EAI_AGAIN" = false →
      jsIncludes m "ETIMEDOUT" = false → jsIncludes m "timeout" = false →
      jsIncludes m "ECONNREFUSED" = false → jsIncludes m "403" = false →
      jsIncludes m "Access denied" = false → jsIncludes m "404" = false →
      (classifyFetchError m u).1 = .generic ∧
        (classifyFetchError m u).2.message = "Failed to fetch RSS feed: " ++ m) ∧
    (jsIncludes m "ENOTFOUND" = true → (classifyFetchError m u).1 ≠ .generic) := by
  refine ⟨?_, ?_, ?_, ?_, ?_, ?_, ?_⟩
  · rintro (h | h) <;> simp [classifyFetchError, h]
  · intro h1 h2 h3
    rcases h3 with h | h <;> simp [classifyFetchError, h1, h2, h]
  · intro h1 h2 h3 h4 h5
    simp [classifyFetchError, h1, h2, h3, h4, h5]
  · intro h1 h2 h3 h4 h5 h6
    rcases h6 with h | h <;> simp [classifyFetchError, h1, h2, h3, h4, h5, h]
  · intro h1 h2 h3 h4 h5 h6 h7 h8
    simp [classifyFetchError, h1, h2, h3, h4, h5, h6, h7, h8]
  · intro h1 h2 h3 h4 h5 h6 h7 h8
    simp [classifyFetchError, h1, h2, h3, h4, h5, h6, h7, h8]
  · intro h
    simp [classifyFetchError, h]

/-- Concrete runs of `classifyFetchError_priority`: a message containing
`ENOTFOUND` is classified as the DNS kind, and an HTTP 403 message with no
earlier signature is classified as access denied with status 403. -/
theorem classifyFetchError_priority_witness :
    (classifyFetchError "getaddrinfo ENOTFOUND example.com" "http://feed").1 =
        FetchKind.dns ∧
      (classifyFetchError "Status code 403" "http://feed").2.statusCode =
        some 403 :=
  ⟨((classifyFetchError_priority "getaddrinfo ENOTFOUND example.com"
      "http://feed").1 (Or.inl (by decide))).1,
    ((classifyFetchError_priority "Status code 403" "http://feed").2.2.2.1
      (by decide) (by decide) (by decide) (by decide) (by decide)
      (Or.inl (by decide))).2⟩

theorem pubDatePasses_iff (parse : String → Option Int) (cutoff : Int)
    (pd : Option String) (hparse : parse "" = none) :
    pubDatePasses parse cutoff pd = true ↔
      ∃ s t, pd = some s ∧ parse s = some t ∧ cutoff ≤ t := by
  cases pd with
  | none => simp [pubDatePasses]
  | some s =>
    by_cases hs : s = ""
    · subst hs
      simp [pubDatePasses, hparse]
    · cases hp : parse s with
      | none => simp [pubDatePasses, hs, hp]
      | some t => simp [pubDatePasses, hs, hp]

/-- C3: under the JS date semantics (an invalid date compares false against
everything, modelled by `parse` returning `none`, with the empty string
never parsing), `filterNewsByDate` keeps exactly the items whose publication
date is present and parses to a timestamp at or after `now` minus `daysBack`
days, and the result is a sublist of the input (order preserved).  The
filter is a total function, so no date string can make it throw. -/
theorem filterNewsByDate_spec (parse : String → Option Int) (now : Int)
    (items : List FeedItem) (daysBack : Nat) (hparse : parse "" = none) :
    (∀ x, x ∈ filterNewsByDate parse now items daysBack ↔
      x ∈ items ∧ ∃ s t, x.pubDate = some s ∧ parse s = some t ∧
        now - daysBack * msPerDay ≤ t) ∧
    (filterNewsByDate parse now items daysBack).Sublist items := by
  constructor
  · intro x
    rw [filterNewsByDate, List.mem_filter,
      pubDatePasses_iff parse (now - daysBack * msPerDay) x.pubDate hparse]
  · exact List.filter_sublist items

/-- Sample date parser for the witnesses: only the string "May 1" denotes a
valid date, at timestamp 500. -/
def demoParse : String → Option Int :=
  fun s => if s = "May 1" then some 500 else none

/-- Sample feed item carrying the parseable date "May 1". -/
def demoDatedItem : FeedItem :=
  ⟨some "t", none, some "May 1", none, none, none, none⟩

/-- Concrete run of `filterNewsByDate_spec`: with `now = 500` the item dated
"May 1" (timestamp 500) survives a one-day look-back filter. -/
theorem filterNewsByDate_spec_witness :
    demoDatedItem ∈ filterNewsByDate demoParse 500 [demoDatedItem] 1 :=
  ((filterNewsByDate_spec demoParse 500 [demoDatedItem] 1 rfl).1
      demoDatedItem).2
    ⟨by simp, "May 1", 500, rfl, rfl, by norm_num [msPerDay]⟩

/-- Sample feed item titled "AI breakthrough", used to exhibit the
case-insensitivity of the keyword filter. -/
def aiDemoItem : FeedItem :=
  ⟨some "AI breakthrough", none, none, none, none, none, none⟩

/-- C8: `filterNewsByKeyword` keeps exactly the items where the lowercased
keyword occurs as a substring of the lowercased title or of the lowercased
content snippet (falling back to the raw content when the snippet is absent
or JS-falsy, and to the empty string when both are), the result is a sublist
of the input, and concretely the keyword "ai" matches an item titled
"AI breakthrough". -/
theorem filterNewsByKeyword_spec (items : List FeedItem) (keyword : String) :
    (∀ x, x ∈ filterNewsByKeyword items keyword ↔
      x ∈ items ∧
        ((jsToLower keyword).toList <:+: (jsToLower (jsOrElse x.title "")).toList ∨
          (jsToLower keyword).toList <:+:
            (jsToLower (jsOrElse x.contentSnippet (jsOrElse x.content ""))).toList)) ∧
    (filterNewsByKeyword items keyword).Sublist items ∧
    filterNewsByKeyword [aiDemoItem] "ai" = [aiDemoItem] := by
  refine ⟨?_, List.filter_sublist items, by decide⟩
  intro x
  rw [filterNewsByKeyword, List.mem_filter]
  simp [keywordMatches, jsIncludes]

theorem get_cons_eraseIdx_perm :
    ∀ (l : List α) (i : Nat) (h : i < l.length),
      (l.get ⟨i, h⟩ :: l.eraseIdx i).Perm l := by
  intro l
  induction l with
  | nil => intro i h; simp at h
  | cons a t ih =>
    intro i h
    cases i with
    | zero => simp
    | succ j =>
      have hj : j < t.length := by simpa using h
      rw [List.get_cons_succ, List.eraseIdx_cons_succ]
      exact ((List.Perm.swap a (t.get ⟨j, hj⟩) (t.eraseIdx j)).trans
        ((ih j hj).cons a))

theorem sampleGo_perm (rand : Nat → Nat) :
    ∀ (count step : Nat) (pool : List α),
      ((sampleGo rand step count pool).1 ++
        (sampleGo rand step count pool).2).Perm pool := by
  intro count
  induction count with
  | zero => intro step pool; simp [sampleGo]
  | succ c ih =>
    intro step pool
    cases pool with
    | nil => simp [sampleGo]
    | cons a rest =>
      rw [sampleGo]
      refine List.Perm.trans ?_
        (get_cons_eraseIdx_perm (a :: rest) (rand step % (a :: rest).length)
          (Nat.mod_lt _ (Nat.succ_pos _)))
      simpa using
        (ih (step + 1)
          ((a :: rest).eraseIdx (rand step % (a :: rest).length))).cons
          ((a :: rest).get ⟨rand step % (a :: rest).length,
            Nat.mod_lt _ (Nat.succ_pos _)⟩)

theorem sampleGo_length (rand : Nat → Nat) :
    ∀ (count step : Nat) (pool : List α),
      (sampleGo rand step count pool).1.length = min count pool.length := by
  intro count
  induction count with
  | zero => intro step pool; simp [sampleGo]
  | succ c ih =>
    intro step pool
    cases pool with
    | nil => simp [sampleGo]
    | cons a rest =>
      rw [sampleGo]
      have hidx : rand step % (a :: rest).length < (a :: rest).length :=
        Nat.mod_lt _ (Nat.succ_pos _)
      have hlen : ((a :: rest).eraseIdx
          (rand step % (a :: rest).length)).length = rest.length := by
        rw [List.length_eraseIdx, if_pos hidx]
        simp
      have hrec : (sampleGo rand (step + 1) c
          ((a :: rest).eraseIdx (rand step % (a :: rest).length))).1.length =
          min c rest.length := by
        rw [ih, hlen]
      dsimp only
      rw [List.length_cons, hrec]
      have hcons : (a :: rest).length = rest.length + 1 := rfl
      rw [hcons]
      omega

/-- C4: for an input of at most `count` items, `getRandomNewsItems` returns
the input unchanged in its original order; for a longer input it returns,
for every choice sequence `rand`, exactly `count` items forming a
sub-permutation of the input (each returned item is an element of the input,
and when the input has no duplicates neither does the sample). -/
theorem getRandomNewsItems_spec (rand : Nat → Nat) (items : List α)
    (count : Nat) :
    (items.length ≤ count → getRandomNewsItems rand items count = items) ∧
    (count < items.length →
      (getRandomNewsItems rand items count).length = count ∧
      (getRandomNewsItems rand items count).Subperm items ∧
      (∀ x ∈ getRandomNewsItems rand items count, x ∈ items) ∧
      (items.Nodup → (getRandomNewsItems rand items count).Nodup)) := by
  constructor
  · intro h
    simp [getRandomNewsItems, h]
  · intro h
    have hne : ¬ items.length ≤ count := by omega
    rw [getRandomNewsItems, if_neg hne]
    have hsub : (sampleGo rand 0 count items).1.Subperm items :=
      ((List.sublist_append_left (sampleGo rand 0 count items).1
        (sampleGo rand 0 count items).2).subperm).trans
        (sampleGo_perm rand count 0 items).subperm
    refine ⟨?_, hsub, fun x hx => hsub.subset hx, ?_⟩
    · rw [sampleGo_length]
      omega
    · intro hnd
      obtain ⟨l, hlp, hls⟩ := hsub
      exact hlp.nodup (hls.nodup hnd)

/-- Concrete runs of `getRandomNewsItems_spec`: sampling 2 of 4 items yields
a 2-item result, and a 1-item list sampled for 5 items is returned as is. -/
theorem getRandomNewsItems_spec_witness :
    (getRandomNewsItems (fun n => n) ([0, 1, 2, 3] : List Nat) 2).length = 2 ∧
      getRandomNewsItems (fun n => n) ([10] : List Nat) 5 = [10] :=
  ⟨((getRandomNewsItems_spec (fun n => n) [0, 1, 2, 3] 2).2 (by norm_num)).1,
    (getRandomNewsItems_spec (fun n => n) [10] 5).1 (by norm_num)⟩

theorem readArr_alloc_of_lt (h : JsHeap α) (l : List α) (r : Nat)
    (hr : r < h.arrays.length) : readArr (allocArr h l).1 r = readArr h r := by
  simp only [readArr, allocArr]
  exact List.getD_append h.arrays [l] [] r hr

theorem readArr_write_ne (h : JsHeap α) (r' r : Nat) (l : List α)
    (hne : r' ≠ r) : readArr (writeArr h r' l) r = readArr h r := by
  simp only [readArr, writeArr, List.getD_eq_getElem?_getD]
  rw [List.getElem?_set_ne hne]

theorem sampleLoopH_frame (rand : Nat → Nat) (copyRef : Nat) :
    ∀ (remaining step : Nat) (h : JsHeap α) (acc : List α) (r : Nat),
      r ≠ copyRef →
      readArr (sampleLoopH rand copyRef step remaining h acc).1 r =
        readArr h r := by
  intro remaining
  induction remaining with
  | zero => intro step h acc r _; rfl
  | succ m ih =>
    intro step h acc r hr
    rw [sampleLoopH]
    cases hpool : readArr h copyRef with
    | nil => rfl
    | cons a rest =>
      dsimp only
      rw [ih]
      · exact readArr_write_ne h copyRef r _ (fun hc => hr hc.symm)
      · exact hr

/-- C9: `getRandomNewsItems` never mutates its argument array: in the
heap-instrumented model, the array at the argument reference holds the same
elements in the same order after the call as before (all `splice` mutations
target the freshly allocated copy). -/
theorem getRandomNewsItemsH_frame (rand : Nat → Nat) (h : JsHeap α)
    (itemsRef count : Nat) (href : itemsRef < h.arrays.length) :
    readArr (getRandomNewsItemsH rand h itemsRef count).1 itemsRef =
      readArr h itemsRef := by
  rw [getRandomNewsItemsH]
  by_cases hle : (readArr h itemsRef).length ≤ count
  · rw [if_pos hle]
  · rw [if_neg hle]
    dsimp only
    rw [sampleLoopH_frame rand (allocArr h (readArr h itemsRef)).2 count 0
      (allocArr h (readArr h itemsRef)).1 [] itemsRef (by
        show itemsRef ≠ h.arrays.length
        omega)]
    exact readArr_alloc_of_lt h (readArr h itemsRef) itemsRef href

/-- Concrete run of `getRandomNewsItemsH_frame`: sampling 2 items from the
4-item array at reference 0 leaves that array unchanged. -/
theorem getRandomNewsItemsH_frame_witness :
    readArr (getRandomNewsItemsH (fun n => n)
        (⟨[[0, 1, 2, 3]]⟩ : JsHeap Nat) 0 2).1 0 = [0, 1, 2, 3] :=
  getRandomNewsItemsH_frame (fun n => n) ⟨[[0, 1, 2, 3]]⟩ 0 2 (by norm_num)

/-- C5 counterexample: the item content "a " has at most 150 characters but
is not rendered verbatim - the source trims the truncated prefix
(`substring(0, 150).trim()`), so the trailing space is dropped. -/
theorem summaryOf_counterexample :
    ("a ".length ≤ 150 ∧ summaryOf "a " ≠ "a ") ∧ summaryOf "a " = "a" := by
  constructor
  · constructor
    · decide
    · intro hc
      exact absurd hc (by decide)
  · decide

/-- C5 (amended): content of at most 150 characters is rendered as the
whitespace-trimmed content with no appended ellipsis, and content exceeding
150 characters is rendered as the whitespace-trimmed first 150 characters
followed by an ellipsis. -/
theorem summaryOf_spec (content : String) :
    (content.length ≤ 150 → summaryOf content = jsTrim content) ∧
    (150 < content.length →
      summaryOf content = jsTrim (jsSubstrTo content 150) ++ "...") := by
  constructor
  · intro h
    rw [summaryOf, if_neg (by omega)]
    have hsub : jsSubstrTo content 150 = content := by
      have h' : content.toList.length ≤ 150 := h
      rw [jsSubstrTo, List.take_of_length_le h']
      cases content
      rfl
    rw [hsub, String.append_empty]
  · intro h
    rw [summaryOf, if_pos h]

/-- Sample 151-character content for the witness of `summaryOf_spec`. -/
def longDemoContent : String := String.mk (List.replicate 151 'a')

theorem longDemoContent_length : longDemoContent.length = 151 := by
  show (String.mk (List.replicate 151 'a')).length = 151
  rw [String.length_mk, List.length_replicate]

/-- Concrete runs of `summaryOf_spec`: short content is rendered trimmed
with no ellipsis, and 151-character content gets the trimmed 150-character
prefix plus an ellipsis. -/
theorem summaryOf_spec_witness :
    summaryOf "a " = jsTrim "a " ∧
      summaryOf longDemoContent =
        jsTrim (jsSubstrTo longDemoContent 150) ++ "..." :=
  ⟨(summaryOf_spec "a ").1 (by decide),
    (summaryOf_spec longDemoContent).2
      (by rw [longDemoContent_length]; norm_num)⟩

/-- C6: when the HTTP response is 2xx, a cleaned article text shorter than
100 characters (including the empty extraction) produces a normal `.ok`
return (not an error) carrying the fallback message that directs the caller
to the original URL; cleaned text longer than 5000 characters produces the
first 5000 characters followed by the truncation notice. -/
theorem fetchArticleContent_policy (articleUrl statusText cleaned : String)
    (status : Nat) (h2xx : 200 ≤ status ∧ status ≤ 299) :
    (cleaned.length < 100 →
      fetchArticleAttempt articleUrl status statusText cleaned =
        .ok (fallbackArticleMessage articleUrl)) ∧
    (5000 < cleaned.length →
      fetchArticleAttempt articleUrl status statusText cleaned =
        .ok (jsSubstrTo cleaned 5000 ++ truncationSuffix)) := by
  constructor
  · intro hshort
    rw [fetchArticleAttempt, if_neg (by simpa using h2xx),
      articleContentResult, if_pos (Or.inr hshort)]
  · intro hlong
    have hne : ¬(cleaned = "" ∨ cleaned.length < 100) := by
      rintro (he | hlt)
      · subst he
        have h0 : ("" : String).length = 0 := rfl
        omega
      · omega
    rw [fetchArticleAttempt, if_neg (by simpa using h2xx),
      articleContentResult, if_neg hne, if_pos hlong]

/-- Sample 5001-character cleaned article text for the witness of
`fetchArticleContent_policy`. -/
def longArticleText : String := String.mk (List.replicate 5001 'a')

theorem longArticleText_length : longArticleText.length = 5001 := by
  show (String.mk (List.replicate 5001 'a')).length = 5001
  rw [String.length_mk, List.length_replicate]

/-- Concrete runs of `fetchArticleContent_policy`: a 2-character extraction
degrades to the fallback message as a normal return, and a 5001-character
extraction is truncated to 5000 characters plus the notice. -/
theorem fetchArticleContent_policy_witness :
    fetchArticleAttempt "http://a" 200 "OK" "hi" =
        .ok (fallbackArticleMessage "http://a") ∧
      fetchArticleAttempt "http://a" 200 "OK" longArticleText =
        .ok (jsSubstrTo longArticleText 5000 ++ truncationSuffix) :=
  ⟨(fetchArticleContent_policy "http://a" "OK" "hi" 200
      (by norm_num)).1 (by decide),
    (fetchArticleContent_policy "http://a" "OK" longArticleText 200
      (by norm_num)).2 (by rw [longArticleText_length]; norm_num)⟩

/-- C7: `formatNewsAsBriefSummary` on the empty list returns the fixed
no-articles message (never the empty string), and a `get-daily-news`
invocation whose one-day window holds zero items returns a success envelope
(no error flag) whose text carries that message. -/
theorem dailyNews_empty_window (parse : String → Option Int) (now : Int)
    (sourceName : String) (items : List FeedItem) :
    formatNewsAsBriefSummary [] 10 = noArticlesMessage ∧
    noArticlesMessage ≠ "" ∧
    (filterNewsByDate parse now items 1 = [] →
      getDailyNews parse now sourceName (.ok items) =
        ⟨"# " ++ sourceName ++ " - Today's News\n\n" ++ noArticlesMessage,
          false⟩) := by
  refine ⟨rfl, by decide, ?_⟩
  intro hempty
  rw [getDailyNews, hempty]
  rfl

/-- Concrete run of `dailyNews_empty_window`: an empty feed yields a success
response carrying the no-articles message. -/
theorem dailyNews_empty_window_witness :
    getDailyNews demoParse 0 "The Verge (tech)" (.ok []) =
      ⟨"# The Verge (tech) - Today's News\n\n" ++ noArticlesMessage,
        false⟩ :=
  (dailyNews_empty_window demoParse 0 "The Verge (tech)" []).2.2 rfl

theorem formatNewsAsBriefSummary_take (items : List FormattedItem) :
    formatNewsAsBriefSummary items 10 =
      formatNewsAsBriefSummary (items.take 10) 10 := by
  cases items with
  | nil => rfl
  | cons a t =>
    rw [formatNewsAsBriefSummary, formatNewsAsBriefSummary,
      if_neg (by simp), if_neg (by simp), List.take_take, Nat.min_self]

/-- C10: a successful `search-news` response is a success envelope whose
header count is the total number of feed items passing both the date filter
and the keyword filter over the whole fetched feed, while the rendered body
depends only on the first 10 matching items (so the count is reported in
full even when more than 10 items match). -/
theorem searchNews_count (parse : String → Option Int) (now : Int)
    (keyword : String) (days : Nat) (sourceName : String)
    (allNews : List FeedItem) :
    (searchNews parse now keyword days sourceName (.ok allNews)).isError =
      false ∧
    (searchNews parse now keyword days sourceName (.ok allNews)).text =
      "# " ++ sourceName ++ " - Search Results for \"" ++ keyword ++
        "\"\n\nFound " ++
        toString ((allNews.filter fun it =>
          keywordMatches (jsToLower keyword) it &&
            pubDatePasses parse (now - days * msPerDay) it.pubDate).length) ++
        " articles matching \"" ++ keyword ++ "\" in the last " ++
        toString days ++ " days.\n\n" ++
        formatNewsAsBriefSummary
          ((formatNewsItems (filterNewsByKeyword
            (filterNewsByDate parse now allNews days) keyword)).take 10)
          10 := by
  refine ⟨rfl, ?_⟩
  rw [searchNews]
  rw [← formatNewsAsBriefSummary_take]
  rw [filterNewsByKeyword, filterNewsByDate]
  rw [List.filter_filter]

/-- Concrete run of `filterNewsByKeyword_spec`: the lowercase keyword "ai"
keeps the item titled "AI breakthrough". -/
theorem filterNewsByKeyword_spec_witness :
    aiDemoItem ∈ filterNewsByKeyword [aiDemoItem] "ai" :=
  ((filterNewsByKeyword_spec [aiDemoItem] "ai").1 aiDemoItem).2
    ⟨by simp, Or.inl (by decide)⟩
